import Mathlib

/-!
Shallow embedding of ddtrace/internal/telemetry/metrics.py and proofs of the
spec claims about it.

Modelling conventions:
- Python floats are modelled as rationals (ℚ); the claims are about
  accumulation, overwrite, rate-derivation and schema semantics, not about
  IEEE rounding.
- time.time() is an external clock; every add_point variant that reads it
  takes the current time as an explicit argument `now`.
- Python str.lower() is modelled by `str_lower` (per-character lowercase).
- The Python builtin hash of the identity 4-tuple in Metric.get_id is modelled
  by the structural tuple itself: the runtime SipHash is seeded per process and
  is not shallowly embeddable, and the identity semantics the code relies on
  (dict keying, which resolves by structural equality) is that of the tuple.
- A serialized payload is a record whose optional fields model key presence in
  the returned Python dict: `none` means the key is absent.
-/

/-- MetricTagType = Optional[Tuple[Tuple[str, str], ...]] (metrics.py line 12). -/
abbrev MetricTagType := Option (List (String × String))

/-- Python str.lower(), modelled per character (ASCII case mapping). -/
def str_lower (s : String) : String :=
  ⟨s.data.map Char.toLower⟩

/-- State shared by all four metric kinds: the slots of class Metric
(metrics.py line 21), with `_points` typed per kind through the parameter π
(timestamped pairs for count/gauge/rate, bare values for distributions). -/
structure Metric (π : Type) where
  name : String
  namespace_ : String
  tags : MetricTagType
  is_common_to_all_tracers : Bool
  interval : Option ℚ
  points : List π
  count : ℚ
  deriving Repr, DecidableEq

/-- Metric.__init__ (metrics.py lines 23-38): lowercases the name, stores the
other arguments unchanged, and starts with `_count = 0.0`, `_points = []`. -/
def Metric.init {π : Type} (nspace name : String) (tags : MetricTagType)
    (common : Bool) (interval : Option ℚ) : Metric π :=
  { name := str_lower name
    is_common_to_all_tracers := common
    interval := interval
    namespace_ := nspace
    tags := tags
    count := 0
    points := [] }

/-- Metric.get_id (metrics.py lines 40-46): hash((name, namespace, tags,
metric_type)). The builtin hash is modelled by the structural 4-tuple (see the
header comment). -/
def Metric.get_id (name nspace : String) (tags : MetricTagType)
    (metric_type : String) : String × String × MetricTagType × String :=
  (name, nspace, tags, metric_type)

/-- Metric.__hash__ (metrics.py lines 48-49): get_id applied to the stored
(already lowercased) name, namespace, tags, and the class metric_type. -/
def Metric.hash_ {π : Type} (metric_type : String) (m : Metric π) :
    String × String × MetricTagType × String :=
  Metric.get_id m.name m.namespace_ m.tags metric_type

/-- Metric.add_point (metrics.py lines 51-55) is an abc.abstractmethod: the
ABCMeta machinery makes any direct use of the base contract without a concrete
override fail with a TypeError. That enforced failure is modelled as an
`Except.error`; the concrete overrides below are plain total functions. -/
def Metric.add_point_abstract : Except String Unit :=
  Except.error "TypeError: abstract method add_point invoked without a concrete override"

/-- int(q) in Python truncates toward zero. -/
def int_trunc (q : ℚ) : Int :=
  q.num.tdiv (q.den : Int)

/-- The tags list of the payload (metrics.py line 65 and line 144):
["{}:{}".format(k, v).lower() for k, v in self._tags] if self._tags else [].
Both None and the empty sequence are falsy in Python. -/
def format_tags (tags : MetricTagType) : List String :=
  match tags with
  | some l => if l = [] then [] else l.map (fun kv => str_lower (kv.1 ++ ":" ++ kv.2))
  | none => []

/-- Payload returned by to_dict. Fields of type Option model key presence:
`none` means the key is absent from the returned dict. -/
structure Payload (π : Type) where
  metric : String
  type : Option String
  common : Option Bool
  points : List π
  tags : List String
  interval : Option Int
  deriving Repr, DecidableEq

/-- Metric.to_dict (metrics.py lines 57-69), shared by count, gauge and rate:
always emits metric, type, common, points and tags; emits interval (as a
truncated integer) exactly when `self.interval is not None`. -/
def Metric.to_dict {π : Type} (metric_type : String) (m : Metric π) : Payload π :=
  { metric := m.name
    type := some metric_type
    common := some m.is_common_to_all_tracers
    points := m.points
    tags := format_tags m.tags
    interval := m.interval.map int_trunc }

/-- Points of count, gauge and rate metrics are (timestamp, value) pairs. -/
abbrev CountState := Metric (ℚ × ℚ)
abbrev GaugeState := Metric (ℚ × ℚ)
abbrev RateState := Metric (ℚ × ℚ)
/-- Points of a distribution metric are bare values, no timestamp. -/
abbrev DistState := Metric ℚ

/-- CountMetric.metric_type (metrics.py line 78). -/
def CountMetric.metric_type : String := "count"
/-- GaugeMetric.metric_type (metrics.py line 97). -/
def GaugeMetric.metric_type : String := "gauge"
/-- RateMetric.metric_type (metrics.py line 111). -/
def RateMetric.metric_type : String := "rate"
/-- DistributionMetric.metric_type (metrics.py line 129). -/
def DistributionMetric.metric_type : String := "distributions"

/-- CountMetric.add_point (metrics.py lines 80-86): if _points is non-empty,
add value into _points[0][1] in place; otherwise store [[time.time(), value]]. -/
def CountMetric.add_point (m : CountState) (now value : ℚ) : CountState :=
  match m.points with
  | (ts, v) :: rest => { m with points := (ts, v + value) :: rest }
  | [] => { m with points := [(now, value)] }

/-- GaugeMetric.add_point (metrics.py lines 99-102): replace _points with
[(time.time(), value)]. -/
def GaugeMetric.add_point (m : GaugeState) (now value : ℚ) : GaugeState :=
  { m with points := [(now, value)] }

/-- rate = (self._count / self.interval) if self.interval else 0.0
(metrics.py line 119); None and 0.0 are falsy in Python. -/
def rate_value (interval : Option ℚ) (count : ℚ) : ℚ :=
  match interval with
  | some i => if i = 0 then 0 else count / i
  | none => 0

/-- RateMetric.add_point (metrics.py lines 113-120): increment _count by value,
recompute the rate from the updated running total and the stored interval, and
replace _points with [(time.time(), rate)]. -/
def RateMetric.add_point (m : RateState) (now value : ℚ) : RateState :=
  { m with
    count := m.count + value
    points := [(now, rate_value m.interval (m.count + value))] }

/-- DistributionMetric.add_point (metrics.py lines 131-136): append the bare
value to _points; no timestamp is read. -/
def DistributionMetric.add_point (m : DistState) (value : ℚ) : DistState :=
  { m with points := m.points ++ [value] }

/-- DistributionMetric.to_dict (metrics.py lines 138-146): emits only metric,
points and tags; type, common and interval are never present. -/
def DistributionMetric.to_dict (m : DistState) : Payload ℚ :=
  { metric := m.name
    type := none
    common := none
    points := m.points
    tags := format_tags m.tags
    interval := none }

/-- to_dict as inherited by CountMetric: the base Metric.to_dict with the class
attribute metric_type = "count". -/
def CountMetric.to_dict (m : CountState) : Payload (ℚ × ℚ) :=
  Metric.to_dict CountMetric.metric_type m

/-- to_dict as inherited by GaugeMetric. -/
def GaugeMetric.to_dict (m : GaugeState) : Payload (ℚ × ℚ) :=
  Metric.to_dict GaugeMetric.metric_type m

/-- to_dict as inherited by RateMetric. -/
def RateMetric.to_dict (m : RateState) : Payload (ℚ × ℚ) :=
  Metric.to_dict RateMetric.metric_type m

/-- Serialization viewed as a state transition: to_dict only reads self, so the
post-state is the unchanged metric. -/
def Metric.serialize_step {π : Type} (metric_type : String) (m : Metric π) :
    Payload π × Metric π :=
  (Metric.to_dict metric_type m, m)

/-- Distribution serialization viewed as a state transition. -/
def DistributionMetric.serialize_step (m : DistState) : Payload ℚ × DistState :=
  (DistributionMetric.to_dict m, m)

/-- A sequence of count add_point calls, each with its time.time() reading. -/
def CountMetric.add_points (m : CountState) (obs : List (ℚ × ℚ)) : CountState :=
  obs.foldl (fun s o => CountMetric.add_point s o.1 o.2) m

/-- A sequence of gauge add_point calls, each with its time.time() reading. -/
def GaugeMetric.add_points (m : GaugeState) (obs : List (ℚ × ℚ)) : GaugeState :=
  obs.foldl (fun s o => GaugeMetric.add_point s o.1 o.2) m

/-- A sequence of rate add_point calls, each with its time.time() reading. -/
def RateMetric.add_points (m : RateState) (obs : List (ℚ × ℚ)) : RateState :=
  obs.foldl (fun s o => RateMetric.add_point s o.1 o.2) m

/-- A sequence of distribution add_point calls (no timestamps involved). -/
def DistributionMetric.add_points (m : DistState) (vs : List ℚ) : DistState :=
  vs.foldl (fun s v => DistributionMetric.add_point s v) m

/-! ### Helper lemmas -/

lemma CountMetric.count_add_points_cons (m : CountState) (o : ℚ × ℚ) (obs : List (ℚ × ℚ)) :
    CountMetric.add_points m (o :: obs)
      = CountMetric.add_points (CountMetric.add_point m o.1 o.2) obs := rfl

lemma CountMetric.count_add_points_head (m : CountState) (t s : ℚ) (rest : List (ℚ × ℚ))
    (obs : List (ℚ × ℚ)) (h : m.points = (t, s) :: rest) :
    (CountMetric.add_points m obs).points = (t, s + (obs.map Prod.snd).sum) :: rest := by
  induction obs generalizing m s with
  | nil => simpa [CountMetric.add_points] using h
  | cons o obs ih =>
      rw [CountMetric.count_add_points_cons]
      have h2 : (CountMetric.add_point m o.1 o.2).points = (t, s + o.2) :: rest := by
        simp [CountMetric.add_point, h]
      rw [ih _ _ h2]
      simp [add_assoc]

lemma GaugeMetric.gauge_add_points_last (m : GaugeState) (obs : List (ℚ × ℚ)) (t v : ℚ) :
    (GaugeMetric.add_points m (obs ++ [(t, v)])).points = [(t, v)] := by
  simp [GaugeMetric.add_points, List.foldl_append, GaugeMetric.add_point]

lemma RateMetric.rate_add_points_cons (m : RateState) (o : ℚ × ℚ) (obs : List (ℚ × ℚ)) :
    RateMetric.add_points m (o :: obs)
      = RateMetric.add_points (RateMetric.add_point m o.1 o.2) obs := rfl

lemma RateMetric.rate_add_points_total (m : RateState) (obs : List (ℚ × ℚ)) :
    (RateMetric.add_points m obs).count = m.count + (obs.map Prod.snd).sum := by
  induction obs generalizing m with
  | nil => simp [RateMetric.add_points]
  | cons o obs ih =>
      rw [RateMetric.rate_add_points_cons, ih]
      simp [RateMetric.add_point, add_assoc]

lemma RateMetric.rate_add_points_keeps_interval (m : RateState) (obs : List (ℚ × ℚ)) :
    (RateMetric.add_points m obs).interval = m.interval := by
  induction obs generalizing m with
  | nil => simp [RateMetric.add_points]
  | cons o obs ih =>
      rw [RateMetric.rate_add_points_cons, ih]
      simp [RateMetric.add_point]

lemma RateMetric.rate_add_points_last (m : RateState) (obs : List (ℚ × ℚ)) (t v : ℚ) :
    (RateMetric.add_points m (obs ++ [(t, v)])).points
      = [(t, rate_value m.interval (m.count + (obs.map Prod.snd).sum + v))] := by
  have hsplit : RateMetric.add_points m (obs ++ [(t, v)])
      = RateMetric.add_point (RateMetric.add_points m obs) t v := by
    simp [RateMetric.add_points, List.foldl_append]
  rw [hsplit]
  simp [RateMetric.add_point, RateMetric.rate_add_points_total, RateMetric.rate_add_points_keeps_interval]

lemma DistributionMetric.dist_add_points_list (m : DistState) (vs : List ℚ) :
    (DistributionMetric.add_points m vs).points = m.points ++ vs := by
  induction vs generalizing m with
  | nil => simp [DistributionMetric.add_points]
  | cons v vs ih =>
      have hstep : DistributionMetric.add_points m (v :: vs)
          = DistributionMetric.add_points (DistributionMetric.add_point m v) vs := rfl
      rw [hstep, ih]
      simp [DistributionMetric.add_point]

/-! ### Claim theorems -/

/-- Claim C1: for a CountMetric, addPoint(v1), ..., addPoint(vn) with n >= 1 and
no reset leaves points holding exactly one entry whose value is sum(v1..vn) and
whose timestamp is the time of the first call; later calls leave it unchanged. -/
theorem count_accumulation (nspace nm : String) (tags : MetricTagType) (common : Bool)
    (iv : Option ℚ) (t v : ℚ) (obs : List (ℚ × ℚ)) :
    (CountMetric.add_points (Metric.init nspace nm tags common iv) ((t, v) :: obs)).points
      = [(t, v + (obs.map Prod.snd).sum)] := by
  rw [CountMetric.count_add_points_cons]
  have h : (CountMetric.add_point (Metric.init nspace nm tags common iv) t v).points
      = (t, v) :: [] := by
    simp [CountMetric.add_point, Metric.init]
  exact CountMetric.count_add_points_head _ t v [] obs h

/-- Claim C3: for a GaugeMetric, after addPoint(v1), ..., addPoint(vn) with
n >= 1, points holds exactly one entry, the value and timestamp of the last
call; every call replaces the previous entry entirely. -/
theorem gauge_overwrite (nspace nm : String) (tags : MetricTagType) (common : Bool)
    (iv : Option ℚ) (obs : List (ℚ × ℚ)) (t v : ℚ) :
    (GaugeMetric.add_points (Metric.init nspace nm tags common iv) (obs ++ [(t, v)])).points
      = [(t, v)] :=
  GaugeMetric.gauge_add_points_last _ obs t v

/-- Claim C4: for a DistributionMetric, after n addPoint calls with values
v1..vn and no reset, points equals [v1, ..., vn] in call order (hence has
length n), each entry the bare value with no timestamp and no aggregation. -/
theorem distribution_append_only (nspace nm : String) (tags : MetricTagType) (common : Bool)
    (iv : Option ℚ) (vs : List ℚ) :
    (DistributionMetric.add_points (Metric.init nspace nm tags common iv) vs).points = vs
    ∧ (DistributionMetric.add_points (Metric.init nspace nm tags common iv) vs).points.length
        = vs.length := by
  have h : (DistributionMetric.add_points (Metric.init nspace nm tags common iv) vs).points
      = vs := by
    rw [DistributionMetric.dist_add_points_list]
    simp [Metric.init]
  exact ⟨h, by rw [h]⟩

/-- Claim C2: for a RateMetric, after calls summing to T the stored point is a
single entry whose value is T / I when the interval is I > 0 and 0.0 when the
interval is null or 0; the running total is incremented by value on every call
and equals the sum of all values. -/
theorem rate_derivation (nspace nm : String) (tags : MetricTagType) (common : Bool)
    (iv : Option ℚ) (obs : List (ℚ × ℚ)) (t v : ℚ) :
    ((RateMetric.add_points (Metric.init nspace nm tags common iv) (obs ++ [(t, v)])).count
        = ((obs ++ [(t, v)]).map Prod.snd).sum)
    ∧ (∀ i : ℚ, iv = some i → 0 < i →
        (RateMetric.add_points (Metric.init nspace nm tags common iv) (obs ++ [(t, v)])).points
          = [(t, ((obs ++ [(t, v)]).map Prod.snd).sum / i)])
    ∧ (iv = none ∨ iv = some 0 →
        (RateMetric.add_points (Metric.init nspace nm tags common iv) (obs ++ [(t, v)])).points
          = [(t, 0)])
    ∧ (∀ (m : RateState) (now w : ℚ), (RateMetric.add_point m now w).count = m.count + w) := by
  have hsum : ((obs ++ [(t, v)]).map Prod.snd).sum = (obs.map Prod.snd).sum + v := by
    simp
  have hpts := RateMetric.rate_add_points_last (Metric.init nspace nm tags common iv) obs t v
  refine ⟨?_, ?_, ?_, ?_⟩
  · rw [RateMetric.rate_add_points_total, hsum]
    simp [Metric.init]
  · intro i hi hpos
    rw [hpts, hsum]
    simp [Metric.init, hi, rate_value, ne_of_gt hpos]
  · intro hcase
    rw [hpts]
    rcases hcase with h0 | h0 <;> simp [Metric.init, h0, rate_value]
  · intro m now w
    simp [RateMetric.add_point]

/-- Witness for rate_derivation at concrete inputs: interval 2 with values 4
and 6 yields the point value 5 = 10 / 2; a null interval yields 0. -/
theorem rate_derivation_witness :
    (RateMetric.add_points (Metric.init "tracer" "m" none true (some 2)) ([(1, 4)] ++ [(2, 6)])).points
      = [(2, 5)]
    ∧ (RateMetric.add_points (Metric.init "tracer" "m" none true none) ([] ++ [(2, 6)])).points
      = [(2, 0)] := by
  constructor
  · have h := (rate_derivation "tracer" "m" none true (some 2) [(1, 4)] 2 6).2.1 2 rfl
      (by norm_num)
    rw [h]
    norm_num
  · exact (rate_derivation "tracer" "m" none true none [] 2 6).2.2.1 (Or.inl rfl)

/-- Claim C5: a distribution payload never contains the keys type, common or
interval; a count, gauge or rate payload always contains type and common, and
contains interval (the truncated integer of the stored interval) exactly when
the constructed interval is not null. -/
theorem schema_divergence :
    (∀ m : DistState, (DistributionMetric.to_dict m).type = none
        ∧ (DistributionMetric.to_dict m).common = none
        ∧ (DistributionMetric.to_dict m).interval = none)
    ∧ (∀ m : CountState, (CountMetric.to_dict m).type = some CountMetric.metric_type
        ∧ (CountMetric.to_dict m).common = some m.is_common_to_all_tracers
        ∧ (CountMetric.to_dict m).interval = m.interval.map int_trunc)
    ∧ (∀ m : GaugeState, (GaugeMetric.to_dict m).type = some GaugeMetric.metric_type
        ∧ (GaugeMetric.to_dict m).common = some m.is_common_to_all_tracers
        ∧ (GaugeMetric.to_dict m).interval = m.interval.map int_trunc)
    ∧ (∀ m : RateState, (RateMetric.to_dict m).type = some RateMetric.metric_type
        ∧ (RateMetric.to_dict m).common = some m.is_common_to_all_tracers
        ∧ (RateMetric.to_dict m).interval = m.interval.map int_trunc)
    ∧ (∀ (nspace nm : String) (tags : MetricTagType) (common : Bool) (iv : Option ℚ),
        ((CountMetric.to_dict (Metric.init nspace nm tags common iv)).interval).isSome = iv.isSome
        ∧ ((GaugeMetric.to_dict (Metric.init nspace nm tags common iv)).interval).isSome = iv.isSome
        ∧ ((RateMetric.to_dict (Metric.init nspace nm tags common iv)).interval).isSome = iv.isSome) := by
  refine ⟨fun m => ⟨rfl, rfl, rfl⟩, fun m => ⟨rfl, rfl, rfl⟩, fun m => ⟨rfl, rfl, rfl⟩,
    fun m => ⟨rfl, rfl, rfl⟩, fun nspace nm tags common iv => ?_⟩
  cases iv <;>
    simp [CountMetric.to_dict, GaugeMetric.to_dict, RateMetric.to_dict, Metric.to_dict,
      Metric.init]

/-- Claim C6: get_id is deterministic (equal inputs, including identical tag
order, give equal keys); any difference in metric_type alone gives a different
key; swapping two distinct tag pairs, all else identical, gives a different
key. -/
theorem identity_properties :
    (∀ (n1 n2 ns1 ns2 : String) (t1 t2 : MetricTagType) (k1 k2 : String),
        n1 = n2 → ns1 = ns2 → t1 = t2 → k1 = k2 →
        Metric.get_id n1 ns1 t1 k1 = Metric.get_id n2 ns2 t2 k2)
    ∧ (∀ (n ns : String) (t : MetricTagType) (k1 k2 : String), k1 ≠ k2 →
        Metric.get_id n ns t k1 ≠ Metric.get_id n ns t k2)
    ∧ (∀ (n ns : String) (p q : String × String) (r : List (String × String)) (k : String),
        p ≠ q →
        Metric.get_id n ns (some (p :: q :: r)) k ≠ Metric.get_id n ns (some (q :: p :: r)) k) := by
  refine ⟨?_, ?_, ?_⟩
  · rintro n1 n2 ns1 ns2 t1 t2 k1 k2 rfl rfl rfl rfl
    rfl
  · intro n ns t k1 k2 hk h
    simp only [Metric.get_id, Prod.mk.injEq] at h
    exact hk h.2.2.2
  · intro n ns p q r k hpq h
    simp only [Metric.get_id, Prod.mk.injEq, Option.some.injEq, List.cons.injEq] at h
    exact hpq h.2.2.1.1

/-- Witness for identity_properties: concrete equal inputs give equal keys, a
count/gauge kind difference gives different keys, and swapping two distinct
tag pairs gives different keys. -/
theorem identity_properties_witness :
    Metric.get_id "requests" "tracer" none "count" = Metric.get_id "requests" "tracer" none "count"
    ∧ Metric.get_id "requests" "tracer" none "count" ≠ Metric.get_id "requests" "tracer" none "gauge"
    ∧ Metric.get_id "requests" "tracer" (some [("a", "1"), ("b", "2")]) "count"
        ≠ Metric.get_id "requests" "tracer" (some [("b", "2"), ("a", "1")]) "count" :=
  ⟨identity_properties.1 "requests" "requests" "tracer" "tracer" none none "count" "count"
      rfl rfl rfl rfl,
    identity_properties.2.1 "requests" "tracer" none "count" "gauge" (by decide),
    identity_properties.2.2 "requests" "tracer" ("a", "1") ("b", "2") [] "count" (by decide)⟩

/-- Claim C7: invoking addPoint on the abstract Metric contract, with no
concrete override of the reduction policy, signals an unimplemented-operation
error; every concrete operation of the metrics core is total. -/
theorem abstract_add_point_error :
    (∃ e : String, Metric.add_point_abstract = Except.error e)
    ∧ (∀ (m : CountState) (now v : ℚ), ∃ m2, CountMetric.add_point m now v = m2)
    ∧ (∀ (m : GaugeState) (now v : ℚ), ∃ m2, GaugeMetric.add_point m now v = m2)
    ∧ (∀ (m : RateState) (now v : ℚ), ∃ m2, RateMetric.add_point m now v = m2)
    ∧ (∀ (m : DistState) (v : ℚ), ∃ m2, DistributionMetric.add_point m v = m2)
    ∧ (∀ (mt : String) (π : Type) (m : Metric π), ∃ p, Metric.to_dict mt m = p)
    ∧ (∀ m : DistState, ∃ p, DistributionMetric.to_dict m = p) :=
  ⟨⟨_, rfl⟩, fun _ _ _ => ⟨_, rfl⟩, fun _ _ _ => ⟨_, rfl⟩, fun _ _ _ => ⟨_, rfl⟩,
    fun _ _ => ⟨_, rfl⟩, fun _ _ _ => ⟨_, rfl⟩, fun _ => ⟨_, rfl⟩⟩

/-- Claim C8: the stored name is the lowercased input name for every kind, the
name is preserved by every add_point, and the serialized metric field equals
the lowercased input name regardless of input casing. -/
theorem case_normalization (nspace nm mt : String) (tags : MetricTagType) (common : Bool)
    (iv : Option ℚ) :
    ((Metric.init nspace nm tags common iv : CountState).name = str_lower nm)
    ∧ ((Metric.init nspace nm tags common iv : DistState).name = str_lower nm)
    ∧ (∀ (m : CountState) (now v : ℚ), (CountMetric.add_point m now v).name = m.name)
    ∧ (∀ (m : GaugeState) (now v : ℚ), (GaugeMetric.add_point m now v).name = m.name)
    ∧ (∀ (m : RateState) (now v : ℚ), (RateMetric.add_point m now v).name = m.name)
    ∧ (∀ (m : DistState) (v : ℚ), (DistributionMetric.add_point m v).name = m.name)
    ∧ (∀ m : Metric (ℚ × ℚ), (Metric.to_dict mt m).metric = m.name)
    ∧ (∀ m : DistState, (DistributionMetric.to_dict m).metric = m.name)
    ∧ ((Metric.to_dict mt (Metric.init nspace nm tags common iv : CountState)).metric
        = str_lower nm)
    ∧ ((DistributionMetric.to_dict (Metric.init nspace nm tags common iv)).metric
        = str_lower nm) := by
  refine ⟨rfl, rfl, ?_, fun _ _ _ => rfl, fun _ _ _ => rfl, fun _ _ => rfl,
    fun _ => rfl, fun _ => rfl, rfl, rfl⟩
  intro m now v
  cases hp : m.points with
  | nil => simp [CountMetric.add_point, hp]
  | cons o rest =>
      obtain ⟨ts, w⟩ := o
      simp [CountMetric.add_point, hp]

/-- Claim C9: serialization never mutates the metric state: after
serialize_step every stored field (name, namespace, tags, common flag,
interval, points, running total) is unchanged, for the shared payload shape and
for the distribution payload shape. -/
theorem serialize_no_mutation (mt : String) (π : Type) (m : Metric π) (d : DistState) :
    ((Metric.serialize_step mt m).2.name = m.name
      ∧ (Metric.serialize_step mt m).2.namespace_ = m.namespace_
      ∧ (Metric.serialize_step mt m).2.tags = m.tags
      ∧ (Metric.serialize_step mt m).2.is_common_to_all_tracers = m.is_common_to_all_tracers
      ∧ (Metric.serialize_step mt m).2.interval = m.interval
      ∧ (Metric.serialize_step mt m).2.points = m.points
      ∧ (Metric.serialize_step mt m).2.count = m.count)
    ∧ (DistributionMetric.serialize_step d).2 = d :=
  ⟨⟨rfl, rfl, rfl, rfl, rfl, rfl, rfl⟩, rfl⟩

/-- Claim C10: the instance hash is computed from the lowercased stored name,
so two same-kind metrics whose input names differ only in case hash equally,
while get_id applied to the two raw names need not agree. -/
theorem hash_uses_stored_name (mt nspace : String) (tags : MetricTagType) (common : Bool)
    (iv : Option ℚ) (n1 n2 : String) (h : str_lower n1 = str_lower n2) :
    Metric.hash_ mt (Metric.init nspace n1 tags common iv : CountState)
      = Metric.hash_ mt (Metric.init nspace n2 tags common iv : CountState)
    ∧ ∃ a b : String, str_lower a = str_lower b
        ∧ Metric.get_id a nspace tags mt ≠ Metric.get_id b nspace tags mt := by
  constructor
  · simp [Metric.hash_, Metric.init, Metric.get_id, h]
  · refine ⟨"A", "a", by decide, fun hc => ?_⟩
    have h1 : "A" = "a" := congrArg Prod.fst hc
    exact absurd h1 (by decide)

/-- Witness for hash_uses_stored_name: metrics constructed with the names
Requests and requests have the same instance hash. -/
theorem hash_uses_stored_name_witness :
    Metric.hash_ "count" (Metric.init "tracer" "Requests" none true none : CountState)
      = Metric.hash_ "count" (Metric.init "tracer" "requests" none true none : CountState)
    ∧ ∃ a b : String, str_lower a = str_lower b
        ∧ Metric.get_id a "tracer" none "count" ≠ Metric.get_id b "tracer" none "count" :=
  hash_uses_stored_name "count" "tracer" none true none "Requests" "requests" (by decide)
